/-
Verification of the warehouse order-fulfilment tracking engine
(module warehouse_flow): the rack ledger, the order state machine and the
workflow driver. Python dictionaries are modelled as insertion-ordered
association lists (first matching key wins, updates replace in place,
new keys are appended), Python lists as Lean lists, Python str as String,
and Python None as Option.none. Wall-clock timestamps, random barcodes
and the interactive approval decision are external inputs, so they appear
as explicit parameters of the embedded functions. File and console output
(the CSV durability log, print statements, pacing waits) has no effect on
the in-memory state and is not part of the state model; the persist_csv
flag is kept as inert data.
-/
import Mathlib

namespace Warehouse

/-- Status constant STATUS_ITEM_IN_PROCESS from the source. -/
def STATUS_ITEM_IN_PROCESS : String := "item in process of the order"

/-- Status constant STATUS_READY_TO_PACK from the source. -/
def STATUS_READY_TO_PACK : String := "ready to pack"

/-- Status constant STATUS_PACKAGE_LABELLED from the source. -/
def STATUS_PACKAGE_LABELLED : String := "package labelled"

/-- Status constant STATUS_READY_TO_BE_PICKED from the source. -/
def STATUS_READY_TO_BE_PICKED : String := "ready to be picked"

/-- Status constant STATUS_AWAITING_APPROVAL from the source. -/
def STATUS_AWAITING_APPROVAL : String := "awaiting manager approval"

/-- Status constant STATUS_APPROVAL_DECLINED from the source. -/
def STATUS_APPROVAL_DECLINED : String := "declined by manager"

/-- Status constant STATUS_APPROVAL_GRANTED from the source. -/
def STATUS_APPROVAL_GRANTED : String := "approved by manager"

/-- Status constant STATUS_PACKAGE_LOADED from the source. -/
def STATUS_PACKAGE_LOADED : String := "package loaded"

/-- Station constant STATION_WAREHOUSE_RACKS from the source. -/
def STATION_WAREHOUSE_RACKS : String := "warehouse-racks"

/-- Station constant STATION_PACKING from the source. -/
def STATION_PACKING : String := "packing-station"

/-- Station constant STATION_SORTING from the source. -/
def STATION_SORTING : String := "sorting-collation-station"

/-- Station constant STATION_AUDIT from the source. -/
def STATION_AUDIT : String := "manager-audit-station"

/-- Station constant STATION_LOADING from the source. -/
def STATION_LOADING : String := "truck-loading-dock"

/-- Lookup in a Python-style dict modelled as an association list:
the first entry with the requested key wins, absence gives none. -/
def dictGet {α : Type} : List (String × α) → String → Option α
  | [], _ => none
  | p :: rest, k => if p.1 = k then some p.2 else dictGet rest k

/-- Assignment d[k] = v in a Python-style dict: replaces the value of the
first entry with key k in place, or appends a new entry at the end. -/
def dictSet {α : Type} : List (String × α) → String → α → List (String × α)
  | [], k, v => [(k, v)]
  | p :: rest, k, v => if p.1 = k then (k, v) :: rest else p :: dictSet rest k v

/-- The Item dataclass: a physical SKU in the warehouse. -/
structure Item where
  sku : String
  description : String
  rack : Option String
  location : String
  barcode : Option String
deriving DecidableEq

/-- An Item built with the dataclass defaults, as in the demo main:
rack = None, location = STATION_WAREHOUSE_RACKS, barcode = None. -/
def mkItem (sku description : String) : Item :=
  ⟨sku, description, none, STATION_WAREHOUSE_RACKS, none⟩

/-- The ShippingLabel dataclass. -/
structure ShippingLabel where
  from_address : String
  to_address : String
  barcode : String
deriving DecidableEq

/-- The Order dataclass: one customer order with its owned Item. -/
structure Order where
  order_id : String
  item : Item
  current_status : String
  status_history : List (String × String)
  label : Option ShippingLabel
deriving DecidableEq

/-- An Order built with the dataclass defaults:
current_status = STATUS_ITEM_IN_PROCESS, empty history, no label. -/
def mkOrder (order_id : String) (item : Item) : Order :=
  ⟨order_id, item, STATUS_ITEM_IN_PROCESS, [], none⟩

/-- Order.update_status: set the new status and append the timestamped
entry to the history. The timestamp produced by now_iso() is an external
input, passed here as the parameter ts. -/
def Order.update_status (o : Order) (ts new_status : String) : Order :=
  { o with
    current_status := new_status,
    status_history := o.status_history ++ [(ts, new_status)] }

/-- The RackLedger state: the racks dict (rack id to contents list), the
locations dict (sku to location string) and the persist_csv flag. -/
structure RackLedger where
  racks : List (String × List String)
  locations : List (String × String)
  persist_csv : Bool
deriving DecidableEq

/-- A freshly constructed RackLedger: both dicts empty.
The CSV header write is file output only. -/
def freshLedger (persist : Bool) : RackLedger := ⟨[], [], persist⟩

/-- The rack-qualified location string written by add_item_to_rack. -/
def rackLoc (rack_id : String) : String :=
  STATION_WAREHOUSE_RACKS ++ ":" ++ rack_id

/-- The contents of a rack as the code reads them: racks.get(rack_id, []). -/
def rackContents (L : RackLedger) (rack_id : String) : List String :=
  (dictGet L.racks rack_id).getD []

/-- RackLedger.register_rack: racks.setdefault(rack_id, []). -/
def register_rack (L : RackLedger) (rack_id : String) : RackLedger :=
  match dictGet L.racks rack_id with
  | some _ => L
  | none => { L with racks := L.racks ++ [(rack_id, [])] }

/-- RackLedger.add_item_to_rack: register the rack, append sku to its
contents when absent, and point locations[sku] at the rack. -/
def add_item_to_rack (L : RackLedger) (sku rack_id : String) : RackLedger :=
  let L1 := register_rack L rack_id
  let c := rackContents L1 rack_id
  { L1 with
    racks := if sku ∈ c then L1.racks else dictSet L1.racks rack_id (c ++ [sku]),
    locations := dictSet L1.locations sku (rackLoc rack_id) }

/-- RackLedger.remove_item_from_rack: drop sku from the contents of the rack
when present (Python list.remove drops the first occurrence), and set
locations[sku] to the new location unconditionally. -/
def remove_item_from_rack (L : RackLedger) (sku rack_id new_location : String) :
    RackLedger :=
  let c := rackContents L rack_id
  { L with
    racks := if sku ∈ c then dictSet L.racks rack_id (c.erase sku) else L.racks,
    locations := dictSet L.locations sku new_location }

/-- RackLedger.update_item_location: set locations[sku] directly. -/
def update_item_location (L : RackLedger) (sku new_location : String) : RackLedger :=
  { L with locations := dictSet L.locations sku new_location }

/-- RackLedger.find_item: locations.get(sku), i.e. the recorded location
or the explicit absent result. -/
def find_item (L : RackLedger) (sku : String) : Option String :=
  dictGet L.locations sku

/-- One mutation of the ledger, for reasoning about call sequences. -/
inductive LedgerOp
  | add (sku rack_id : String)
  | remove (sku rack_id new_location : String)
  | update (sku new_location : String)
deriving DecidableEq

/-- Apply one ledger mutation. -/
def applyOp (L : RackLedger) : LedgerOp → RackLedger
  | .add sku rid => add_item_to_rack L sku rid
  | .remove sku rid loc => remove_item_from_rack L sku rid loc
  | .update sku loc => update_item_location L sku loc

/-- Apply a sequence of ledger mutations from left to right. -/
def applyOps (L : RackLedger) : List LedgerOp → RackLedger
  | [] => L
  | op :: ops => applyOps (applyOp L op) ops

theorem dictGet_nil {α : Type} (k : String) :
    dictGet ([] : List (String × α)) k = none := rfl

theorem dictGet_cons {α : Type} (p : String × α) (d : List (String × α)) (k : String) :
    dictGet (p :: d) k = if p.1 = k then some p.2 else dictGet d k := rfl

theorem dictSet_nil {α : Type} (k : String) (v : α) :
    dictSet ([] : List (String × α)) k v = [(k, v)] := rfl

theorem dictSet_cons {α : Type} (p : String × α) (d : List (String × α))
    (k : String) (v : α) :
    dictSet (p :: d) k v = if p.1 = k then (k, v) :: d else p :: dictSet d k v := rfl

theorem dictGet_dictSet_self {α : Type} (d : List (String × α)) (k : String) (v : α) :
    dictGet (dictSet d k v) k = some v := by
  induction d with
  | nil => simp [dictGet_nil, dictGet_cons, dictSet_nil]
  | cons p rest ih =>
    by_cases h : p.1 = k
    · simp [dictGet_cons, dictSet_cons, h]
    · simp [dictGet_cons, dictSet_cons, h, ih]

theorem dictGet_dictSet_ne {α : Type} (d : List (String × α)) (k : String) (v : α)
    (k' : String) (h : k' ≠ k) :
    dictGet (dictSet d k v) k' = dictGet d k' := by
  have h2 : ¬ (k = k') := fun e => h e.symm
  induction d with
  | nil => simp [dictGet_nil, dictGet_cons, dictSet_nil, h2]
  | cons p rest ih =>
    by_cases hp : p.1 = k
    · rw [dictSet_cons, if_pos hp, dictGet_cons, dictGet_cons, if_neg h2, if_neg]
      rw [hp]
      exact h2
    · rw [dictSet_cons, if_neg hp, dictGet_cons, dictGet_cons, ih]

theorem dictGet_mem {α : Type} {d : List (String × α)} {k : String} {v : α}
    (h : dictGet d k = some v) : (k, v) ∈ d := by
  induction d with
  | nil => simp [dictGet_nil] at h
  | cons p rest ih =>
    by_cases hp : p.1 = k
    · rw [dictGet_cons, if_pos hp] at h
      injection h with hv
      subst hv
      rw [← hp]
      exact List.mem_cons_self _ _
    · rw [dictGet_cons, if_neg hp] at h
      exact List.mem_cons_of_mem _ (ih h)

theorem mem_dictSet {α : Type} {d : List (String × α)} {k : String} {v : α}
    {p : String × α} (h : p ∈ dictSet d k v) : p = (k, v) ∨ p ∈ d := by
  induction d with
  | nil =>
    rw [dictSet_nil] at h
    exact Or.inl (List.mem_singleton.mp h)
  | cons q rest ih =>
    by_cases hq : q.1 = k
    · rw [dictSet_cons, if_pos hq] at h
      rcases List.mem_cons.mp h with h | h
      · exact Or.inl h
      · exact Or.inr (List.mem_cons_of_mem _ h)
    · rw [dictSet_cons, if_neg hq] at h
      rcases List.mem_cons.mp h with h | h
      · exact Or.inr (h ▸ List.mem_cons_self _ _)
      · rcases ih h with h | h
        · exact Or.inl h
        · exact Or.inr (List.mem_cons_of_mem _ h)

theorem dictSet_dictSet {α : Type} (d : List (String × α)) (k : String) (v w : α) :
    dictSet (dictSet d k v) k w = dictSet d k w := by
  induction d with
  | nil => simp [dictSet_nil, dictSet_cons]
  | cons p rest ih =>
    by_cases hp : p.1 = k
    · simp [dictSet_cons, hp]
    · simp [dictSet_cons, hp, ih]

theorem dictGet_append_of_none {α : Type} {d : List (String × α)} {k : String}
    (h : dictGet d k = none) (l : List (String × α)) :
    dictGet (d ++ l) k = dictGet l k := by
  induction d with
  | nil => simp
  | cons p rest ih =>
    rw [dictGet_cons] at h
    by_cases hp : p.1 = k
    · rw [if_pos hp] at h
      cases h
    · rw [if_neg hp] at h
      rw [List.cons_append, dictGet_cons, if_neg hp]
      exact ih h

theorem dictGet_append_of_some {α : Type} {d : List (String × α)} {k : String} {v : α}
    (h : dictGet d k = some v) (l : List (String × α)) :
    dictGet (d ++ l) k = some v := by
  induction d with
  | nil => simp [dictGet_nil] at h
  | cons p rest ih =>
    rw [dictGet_cons] at h
    by_cases hp : p.1 = k
    · rw [if_pos hp] at h
      rw [List.cons_append, dictGet_cons, if_pos hp]
      exact h
    · rw [if_neg hp] at h
      rw [List.cons_append, dictGet_cons, if_neg hp]
      exact ih h

theorem register_rack_locations (L : RackLedger) (rid : String) :
    (register_rack L rid).locations = L.locations := by
  cases h : dictGet L.racks rid <;> simp [register_rack, h]

theorem register_rack_persist (L : RackLedger) (rid : String) :
    (register_rack L rid).persist_csv = L.persist_csv := by
  cases h : dictGet L.racks rid <;> simp [register_rack, h]

theorem dictGet_register_self (L : RackLedger) (rid : String) :
    dictGet (register_rack L rid).racks rid = some (rackContents L rid) := by
  cases h : dictGet L.racks rid with
  | none =>
    simp only [register_rack, h]
    rw [dictGet_append_of_none h, dictGet_cons]
    simp [rackContents, h]
  | some c =>
    simp [register_rack, h, rackContents]

theorem rackContents_register (L : RackLedger) (rid R : String) :
    rackContents (register_rack L rid) R = rackContents L R := by
  by_cases hR : R = rid
  · subst hR
    rw [rackContents, dictGet_register_self]
    rfl
  · have hR2 : ¬ (rid = R) := fun e => hR (Eq.symm e)
    cases h : dictGet L.racks rid with
    | none =>
      simp only [register_rack, h, rackContents]
      cases hg : dictGet L.racks R with
      | none =>
        rw [dictGet_append_of_none hg, dictGet_cons]
        simp [hR2, dictGet_nil]
      | some c =>
        rw [dictGet_append_of_some hg]
    | some c =>
      simp [register_rack, h]

theorem mem_register_racks {L : RackLedger} {rid : String} {p : String × List String}
    (h : p ∈ (register_rack L rid).racks) : p ∈ L.racks ∨ p.2 = [] := by
  cases hg : dictGet L.racks rid with
  | none =>
    simp only [register_rack, hg] at h
    rcases List.mem_append.mp h with h | h
    · exact Or.inl h
    · right
      rw [List.mem_singleton.mp h]
  | some c =>
    simp only [register_rack, hg] at h
    exact Or.inl h

/-- The location string written by add_item_to_rack is rack-qualified:
it starts with the racks-station prefix. -/
def isRackQualified (loc : String) : Bool :=
  (STATION_WAREHOUSE_RACKS ++ ":").data.isPrefixOf loc.data

theorem rackLoc_inj {r1 r2 : String} (h : rackLoc r1 = rackLoc r2) : r1 = r2 := by
  have hd := congrArg String.data h
  simp only [rackLoc, String.data_append] at hd
  exact String.ext (List.append_cancel_left hd)

theorem isRackQualified_rackLoc (r : String) : isRackQualified (rackLoc r) = true := by
  rw [isRackQualified, rackLoc, String.data_append, List.isPrefixOf_iff_prefix]
  exact List.prefix_append _ _

theorem ne_rackLoc_of_not_qualified {loc : String}
    (h : isRackQualified loc = false) (r : String) : loc ≠ rackLoc r := by
  intro e
  rw [e, isRackQualified_rackLoc] at h
  cases h

/-- The joint state the workflow methods act on: the order being processed
and the shared rack ledger. -/
structure WFState where
  order : Order
  ledger : RackLedger
deriving DecidableEq

namespace OrderWorkflow

/-- OrderWorkflow.receive_order_and_locate_item: put the item at the racks
station on the target rack, record it in the ledger, and transition the
order to STATUS_ITEM_IN_PROCESS. -/
def receive_order_and_locate_item (s : WFState) (target_rack ts : String) : WFState :=
  let item := { s.order.item with
    location := STATION_WAREHOUSE_RACKS, rack := some target_rack }
  let led := add_item_to_rack s.ledger item.sku target_rack
  ⟨({ s.order with item := item }).update_status ts STATUS_ITEM_IN_PROCESS, led⟩

/-- OrderWorkflow.move_to_packing_station: remove the item from its rack
(sentinel UNKNOWN when no rack is assigned), clear the rack field, move it
to the packing station and transition to STATUS_READY_TO_PACK. -/
def move_to_packing_station (s : WFState) (ts : String) : WFState :=
  let rack_id := (s.order.item.rack).getD "UNKNOWN"
  let led := remove_item_from_rack s.ledger s.order.item.sku rack_id STATION_PACKING
  let item := { s.order.item with rack := none, location := STATION_PACKING }
  ⟨({ s.order with item := item }).update_status ts STATUS_READY_TO_PACK, led⟩

/-- OrderWorkflow.label_package: assign the generated barcode (an external
random input, parameter code), attach the shipping label and transition to
STATUS_PACKAGE_LABELLED. The ledger is not touched. -/
def label_package (s : WFState) (from_address to_address code ts : String) : WFState :=
  let item := { s.order.item with barcode := some code }
  ⟨({ s.order with
      item := item,
      label := some ⟨from_address, to_address, code⟩ }).update_status
        ts STATUS_PACKAGE_LABELLED,
    s.ledger⟩

/-- OrderWorkflow.sort_and_collate: move the item to the sorting station in
the ledger and on the item, and transition to STATUS_READY_TO_BE_PICKED.
The outbound route is only logged. -/
def sort_and_collate (s : WFState) (ts : String) : WFState :=
  let led := update_item_location s.ledger s.order.item.sku STATION_SORTING
  let item := { s.order.item with location := STATION_SORTING }
  ⟨({ s.order with item := item }).update_status ts STATUS_READY_TO_BE_PICKED, led⟩

/-- OrderWorkflow.manager_approval: move the item to the audit station,
transition to STATUS_AWAITING_APPROVAL, then apply the externally supplied
decision (true for approve): STATUS_APPROVAL_GRANTED and result true, or
STATUS_APPROVAL_DECLINED and result false. -/
def manager_approval (s : WFState) (decision : Bool) (ts1 ts2 : String) :
    WFState × Bool :=
  let led := update_item_location s.ledger s.order.item.sku STATION_AUDIT
  let item := { s.order.item with location := STATION_AUDIT }
  let o1 := ({ s.order with item := item }).update_status ts1 STATUS_AWAITING_APPROVAL
  if decision then
    (⟨o1.update_status ts2 STATUS_APPROVAL_GRANTED, led⟩, true)
  else
    (⟨o1.update_status ts2 STATUS_APPROVAL_DECLINED, led⟩, false)

/-- OrderWorkflow.load_to_truck: move the item to the loading dock in the
ledger and on the item, and transition to STATUS_PACKAGE_LOADED.
The truck id is only logged. -/
def load_to_truck (s : WFState) (ts : String) : WFState :=
  let led := update_item_location s.ledger s.order.item.sku STATION_LOADING
  let item := { s.order.item with location := STATION_LOADING }
  ⟨({ s.order with item := item }).update_status ts STATUS_PACKAGE_LOADED, led⟩

/-- OrderWorkflow.run: the six steps in order, aborting after the approval
step when the decision is decline. The timestamps t1 to t7 are the seven
now_iso() readings taken at the status updates, and code is the random
barcode drawn at labelling. -/
def run (s : WFState) (initial_rack from_addr to_addr code : String)
    (decision : Bool) (t1 t2 t3 t4 t5 t6 t7 : String) : WFState :=
  let s1 := receive_order_and_locate_item s initial_rack t1
  let s2 := move_to_packing_station s1 t2
  let s3 := label_package s2 from_addr to_addr code t3
  let s4 := sort_and_collate s3 t4
  let p := manager_approval s4 decision t5 t6
  if p.2 then load_to_truck p.1 t7 else p.1

end OrderWorkflow

theorem dictGet_register_other (L : RackLedger) (rid R : String) (hR : R ≠ rid) :
    dictGet (register_rack L rid).racks R = dictGet L.racks R := by
  have hR2 : ¬ (rid = R) := fun e => hR (Eq.symm e)
  cases h : dictGet L.racks rid with
  | none =>
    simp only [register_rack, h]
    cases hg : dictGet L.racks R with
    | none =>
      rw [dictGet_append_of_none hg, dictGet_cons]
      simp [hR2, dictGet_nil, hg]
    | some c => rw [dictGet_append_of_some hg]
  | some c => simp [register_rack, h]

theorem locations_add (L : RackLedger) (sku rid : String) :
    (add_item_to_rack L sku rid).locations = dictSet L.locations sku (rackLoc rid) := by
  simp [add_item_to_rack, register_rack_locations]

theorem racks_dictGet_add (L : RackLedger) (sku rid R : String) :
    dictGet (add_item_to_rack L sku rid).racks R =
      if R = rid then
        some (if sku ∈ rackContents L rid then rackContents L rid
              else rackContents L rid ++ [sku])
      else dictGet L.racks R := by
  have hreg : rackContents (register_rack L rid) rid = rackContents L rid :=
    rackContents_register L rid rid
  by_cases hmem : sku ∈ rackContents L rid
  · have hracks : (add_item_to_rack L sku rid).racks = (register_rack L rid).racks := by
      simp only [add_item_to_rack]
      rw [hreg, if_pos hmem]
    rw [hracks]
    by_cases hR : R = rid
    · rw [hR, dictGet_register_self]
      simp [hmem]
    · rw [dictGet_register_other L rid R hR]
      simp [hR]
  · have hracks : (add_item_to_rack L sku rid).racks =
        dictSet (register_rack L rid).racks rid (rackContents L rid ++ [sku]) := by
      simp only [add_item_to_rack]
      rw [hreg, if_neg hmem]
    rw [hracks]
    by_cases hR : R = rid
    · rw [hR, dictGet_dictSet_self]
      simp [hmem]
    · rw [dictGet_dictSet_ne _ _ _ _ hR, dictGet_register_other L rid R hR]
      simp [hR]

theorem rackContents_add (L : RackLedger) (sku rid R : String) :
    rackContents (add_item_to_rack L sku rid) R =
      if R = rid then
        (if sku ∈ rackContents L rid then rackContents L rid
         else rackContents L rid ++ [sku])
      else rackContents L R := by
  by_cases hR : R = rid <;>
    simp [rackContents, racks_dictGet_add, hR]

theorem mem_rackContents_add_self (L : RackLedger) (sku rid : String) :
    sku ∈ rackContents (add_item_to_rack L sku rid) rid := by
  rw [rackContents_add]
  by_cases hmem : sku ∈ rackContents L rid <;> simp [hmem]

theorem locations_remove (L : RackLedger) (sku rid loc : String) :
    (remove_item_from_rack L sku rid loc).locations = dictSet L.locations sku loc := rfl

theorem rackContents_remove (L : RackLedger) (sku rid loc R : String) :
    rackContents (remove_item_from_rack L sku rid loc) R =
      if R = rid then
        (if sku ∈ rackContents L rid then (rackContents L rid).erase sku
         else rackContents L rid)
      else rackContents L R := by
  by_cases hmem : sku ∈ rackContents L rid
  · have hracks : (remove_item_from_rack L sku rid loc).racks =
        dictSet L.racks rid ((rackContents L rid).erase sku) := by
      simp only [remove_item_from_rack]
      rw [if_pos hmem]
    by_cases hR : R = rid
    · rw [rackContents, hracks, hR, dictGet_dictSet_self]
      simp [hmem]
    · rw [rackContents, hracks, dictGet_dictSet_ne _ _ _ _ hR]
      simp [hR, rackContents]
  · have hracks : (remove_item_from_rack L sku rid loc).racks = L.racks := by
      simp only [remove_item_from_rack]
      rw [if_neg hmem]
    rw [rackContents, hracks]
    by_cases hR : R = rid
    · rw [hR, if_pos rfl]
      exact (if_neg hmem).symm
    · simp [hR, rackContents]

theorem locations_update (L : RackLedger) (sku loc : String) :
    (update_item_location L sku loc).locations = dictSet L.locations sku loc := rfl

theorem racks_update (L : RackLedger) (sku loc : String) :
    (update_item_location L sku loc).racks = L.racks := rfl

/-- The per-sku half of the cross-map invariant: locations[sku] is the
rack-qualified string for R exactly when sku is in racks[R]. -/
def locInv (L : RackLedger) : Prop :=
  ∀ sku R, dictGet L.locations sku = some (rackLoc R) ↔ sku ∈ rackContents L R

/-- No rack contents list holds a duplicate entry. -/
def nodupRacks (L : RackLedger) : Prop :=
  ∀ p ∈ L.racks, List.Nodup p.2

/-- The invariant claimed by the spec, verbatim: locations[sku] is
rack-qualified with rack R if and only if sku is in racks[R], and sku
appears in the contents of no other rack. -/
def claimInv (L : RackLedger) : Prop :=
  ∀ sku R,
    (dictGet L.locations sku = some (rackLoc R) ↔ sku ∈ rackContents L R) ∧
    (dictGet L.locations sku = some (rackLoc R) →
      ∀ R', R' ≠ R → sku ∉ rackContents L R')

theorem claimInv_of_locInv {L : RackLedger} (h : locInv L) : claimInv L := by
  intro sku R
  refine ⟨h sku R, fun hq R' hne hmem => ?_⟩
  have h2 := (h sku R').mpr hmem
  rw [hq] at h2
  injection h2 with h3
  exact hne (rackLoc_inj (Eq.symm h3))

theorem nodupRacks_contents {L : RackLedger} (h : nodupRacks L) (R : String) :
    (rackContents L R).Nodup := by
  cases hg : dictGet L.racks R with
  | none => simp [rackContents, hg]
  | some c =>
    have := h (R, c) (dictGet_mem hg)
    simpa [rackContents, hg] using this

/-- Precondition for add_item_to_rack in a disciplined call sequence:
the sku is currently on no rack. -/
def onNoRack (L : RackLedger) (sku : String) : Bool :=
  L.racks.all fun p => ! p.2.contains sku

/-- Precondition for remove_item_from_rack in a disciplined call sequence:
the sku sits on no rack other than the one named. -/
def onNoOtherRack (L : RackLedger) (sku rid : String) : Bool :=
  L.racks.all fun p => p.1 = rid || ! p.2.contains sku

theorem onNoRack_spec {L : RackLedger} {sku : String}
    (h : onNoRack L sku = true) (R : String) : sku ∉ rackContents L R := by
  rw [onNoRack, List.all_eq_true] at h
  cases hg : dictGet L.racks R with
  | none => simp [rackContents, hg]
  | some c =>
    have h2 := h (R, c) (dictGet_mem hg)
    simp only [Bool.not_eq_true'] at h2
    simp at h2
    simpa [rackContents, hg] using h2

theorem onNoOtherRack_spec {L : RackLedger} {sku rid : String}
    (h : onNoOtherRack L sku rid = true) (R : String) (hR : R ≠ rid) :
    sku ∉ rackContents L R := by
  rw [onNoOtherRack, List.all_eq_true] at h
  cases hg : dictGet L.racks R with
  | none => simp [rackContents, hg]
  | some c =>
    have h2 := h (R, c) (dictGet_mem hg)
    simp at h2
    rcases h2 with h2 | h2
    · exact absurd h2 hR
    · simpa [rackContents, hg] using h2

theorem nodupRacks_register {L : RackLedger} (hnd : nodupRacks L) (rid : String) :
    nodupRacks (register_rack L rid) := by
  intro p hp
  rcases mem_register_racks hp with h | h
  · exact hnd p h
  · rw [h]
    exact List.nodup_nil

theorem nodupRacks_add {L : RackLedger} (hnd : nodupRacks L) (sku rid : String) :
    nodupRacks (add_item_to_rack L sku rid) := by
  have hreg : rackContents (register_rack L rid) rid = rackContents L rid :=
    rackContents_register L rid rid
  have hnd1 := nodupRacks_register hnd rid
  by_cases hmem : sku ∈ rackContents L rid
  · have hracks : (add_item_to_rack L sku rid).racks = (register_rack L rid).racks := by
      simp only [add_item_to_rack]
      rw [hreg, if_pos hmem]
    intro p hp
    rw [hracks] at hp
    exact hnd1 p hp
  · have hracks : (add_item_to_rack L sku rid).racks =
        dictSet (register_rack L rid).racks rid (rackContents L rid ++ [sku]) := by
      simp only [add_item_to_rack]
      rw [hreg, if_neg hmem]
    intro p hp
    rw [hracks] at hp
    rcases mem_dictSet hp with h | h
    · rw [h]
      refine List.Nodup.append (nodupRacks_contents hnd rid) (List.nodup_singleton sku) ?_
      intro x hx hx2
      rw [List.mem_singleton] at hx2
      subst hx2
      exact hmem hx
    · exact hnd1 p h

theorem nodupRacks_remove {L : RackLedger} (hnd : nodupRacks L) (sku rid loc : String) :
    nodupRacks (remove_item_from_rack L sku rid loc) := by
  by_cases hmem : sku ∈ rackContents L rid
  · have hracks : (remove_item_from_rack L sku rid loc).racks =
        dictSet L.racks rid ((rackContents L rid).erase sku) := by
      simp only [remove_item_from_rack]
      rw [if_pos hmem]
    intro p hp
    rw [hracks] at hp
    rcases mem_dictSet hp with h | h
    · rw [h]
      exact List.Nodup.erase sku (nodupRacks_contents hnd rid)
    · exact hnd p h
  · have hracks : (remove_item_from_rack L sku rid loc).racks = L.racks := by
      simp only [remove_item_from_rack]
      rw [if_neg hmem]
    intro p hp
    rw [hracks] at hp
    exact hnd p hp

theorem nodupRacks_update {L : RackLedger} (hnd : nodupRacks L) (sku loc : String) :
    nodupRacks (update_item_location L sku loc) := by
  intro p hp
  exact hnd p hp

theorem nodupRacks_applyOp {L : RackLedger} (hnd : nodupRacks L) (op : LedgerOp) :
    nodupRacks (applyOp L op) := by
  cases op with
  | add sku rid => exact nodupRacks_add hnd sku rid
  | remove sku rid loc => exact nodupRacks_remove hnd sku rid loc
  | update sku loc => exact nodupRacks_update hnd sku loc

theorem nodupRacks_applyOps {L : RackLedger} (hnd : nodupRacks L) (ops : List LedgerOp) :
    nodupRacks (applyOps L ops) := by
  induction ops generalizing L with
  | nil => exact hnd
  | cons op rest ih => exact ih (nodupRacks_applyOp hnd op)

theorem locInv_add {L : RackLedger} (hwf : locInv L) {sku : String} (rid : String)
    (hpre : onNoRack L sku = true) : locInv (add_item_to_rack L sku rid) := by
  intro sku' R
  rw [locations_add, rackContents_add]
  by_cases hsku : sku' = sku
  · subst hsku
    rw [dictGet_dictSet_self]
    constructor
    · intro h
      injection h with h2
      have hR : rid = R := rackLoc_inj h2
      subst hR
      rw [if_pos rfl]
      by_cases hmem : sku' ∈ rackContents L rid <;> simp [hmem]
    · intro hmem2
      by_cases hR : R = rid
      · rw [hR]
      · rw [if_neg hR] at hmem2
        exact absurd hmem2 (onNoRack_spec hpre R)
  · rw [dictGet_dictSet_ne _ _ _ _ hsku]
    by_cases hR : R = rid
    · subst hR
      rw [if_pos rfl]
      by_cases hmem : sku ∈ rackContents L R
      · rw [if_pos hmem]
        exact hwf sku' R
      · rw [if_neg hmem]
        constructor
        · intro h
          exact List.mem_append.mpr (Or.inl ((hwf sku' R).mp h))
        · intro h
          rcases List.mem_append.mp h with h | h
          · exact (hwf sku' R).mpr h
          · exact absurd (List.mem_singleton.mp h) hsku
    · rw [if_neg hR]
      exact hwf sku' R

theorem locInv_remove {L : RackLedger} (hwf : locInv L) (hnd : nodupRacks L)
    {sku rid loc : String} (hpre : onNoOtherRack L sku rid = true)
    (hq : isRackQualified loc = false) :
    locInv (remove_item_from_rack L sku rid loc) := by
  intro sku' R
  rw [locations_remove, rackContents_remove]
  by_cases hsku : sku' = sku
  · subst hsku
    rw [dictGet_dictSet_self]
    constructor
    · intro h
      injection h with h2
      exact absurd h2 (ne_rackLoc_of_not_qualified hq R)
    · intro hmem2
      by_cases hR : R = rid
      · subst hR
        rw [if_pos rfl] at hmem2
        by_cases hmem : sku' ∈ rackContents L R
        · rw [if_pos hmem] at hmem2
          exact absurd hmem2 (List.Nodup.not_mem_erase (nodupRacks_contents hnd R))
        · rw [if_neg hmem] at hmem2
          exact absurd hmem2 hmem
      · rw [if_neg hR] at hmem2
        exact absurd hmem2 (onNoOtherRack_spec hpre R hR)
  · rw [dictGet_dictSet_ne _ _ _ _ hsku]
    by_cases hR : R = rid
    · subst hR
      rw [if_pos rfl]
      by_cases hmem : sku ∈ rackContents L R
      · rw [if_pos hmem, List.mem_erase_of_ne hsku]
        exact hwf sku' R
      · rw [if_neg hmem]
        exact hwf sku' R
    · rw [if_neg hR]
      exact hwf sku' R

theorem locInv_update {L : RackLedger} (hwf : locInv L) {sku loc : String}
    (hpre : onNoRack L sku = true) (hq : isRackQualified loc = false) :
    locInv (update_item_location L sku loc) := by
  intro sku' R
  rw [locations_update]
  have hrc : rackContents (update_item_location L sku loc) R = rackContents L R := rfl
  rw [hrc]
  by_cases hsku : sku' = sku
  · subst hsku
    rw [dictGet_dictSet_self]
    constructor
    · intro h
      injection h with h2
      exact absurd h2 (ne_rackLoc_of_not_qualified hq R)
    · intro hmem
      exact absurd hmem (onNoRack_spec hpre R)
  · rw [dictGet_dictSet_ne _ _ _ _ hsku]
    exact hwf sku' R

/-- Discipline on one ledger call, matching the usage pattern of the workflow: an item
is added to a rack only while on no rack; a removal names a rack such that
the item sits on no other rack and gives a plain (non-rack-qualified)
destination; a direct location update moves an off-rack item to a plain
destination. -/
def precond (L : RackLedger) : LedgerOp → Bool
  | .add sku _ => onNoRack L sku
  | .remove sku rid loc => onNoOtherRack L sku rid && ! isRackQualified loc
  | .update sku loc => onNoRack L sku && ! isRackQualified loc

/-- A call sequence is disciplined when every call satisfies its
precondition in the state it is issued in. -/
def okSeq : RackLedger → List LedgerOp → Bool
  | _, [] => true
  | L, op :: ops => precond L op && okSeq (applyOp L op) ops

theorem locInv_applyOp {L : RackLedger} (hwf : locInv L) (hnd : nodupRacks L)
    {op : LedgerOp} (hpre : precond L op = true) : locInv (applyOp L op) := by
  cases op with
  | add sku rid =>
    exact locInv_add hwf rid hpre
  | remove sku rid loc =>
    simp only [precond, Bool.and_eq_true, Bool.not_eq_true'] at hpre
    exact locInv_remove hwf hnd hpre.1 hpre.2
  | update sku loc =>
    simp only [precond, Bool.and_eq_true, Bool.not_eq_true'] at hpre
    exact locInv_update hwf hpre.1 hpre.2

theorem wf_applyOps {ops : List LedgerOp} {L : RackLedger} (h1 : locInv L)
    (h2 : nodupRacks L) (hok : okSeq L ops = true) :
    locInv (applyOps L ops) ∧ nodupRacks (applyOps L ops) := by
  induction ops generalizing L with
  | nil => exact ⟨h1, h2⟩
  | cons op rest ih =>
    simp only [okSeq, Bool.and_eq_true] at hok
    exact ih (locInv_applyOp h1 h2 hok.1) (nodupRacks_applyOp h2 op) hok.2

theorem okSeq_take {ops : List LedgerOp} {L : RackLedger} (n : Nat)
    (h : okSeq L ops = true) : okSeq L (ops.take n) = true := by
  induction ops generalizing L n with
  | nil => simp [okSeq]
  | cons op rest ih =>
    cases n with
    | zero => simp [okSeq]
    | succ m =>
      rw [List.take_succ_cons]
      simp only [okSeq, Bool.and_eq_true] at h ⊢
      exact ⟨h.1, ih m h.2⟩

theorem locInv_fresh (b : Bool) : locInv (freshLedger b) := by
  intro sku R
  simp [freshLedger, dictGet_nil, rackContents]

theorem nodupRacks_fresh (b : Bool) : nodupRacks (freshLedger b) := by
  intro p hp
  simp [freshLedger] at hp

/-- Apply a sequence of Order.update_status calls, each given as a
(timestamp, status) pair. update_status is the only method that touches
current_status or status_history. -/
def applyUpdates (o : Order) : List (String × String) → Order
  | [] => o
  | u :: us => applyUpdates (o.update_status u.1 u.2) us

theorem applyUpdates_spec (us : List (String × String)) (o : Order) :
    o.status_history <+: (applyUpdates o us).status_history ∧
    (applyUpdates o us).status_history.length = o.status_history.length + us.length ∧
    (us ≠ [] →
      (applyUpdates o us).status_history.getLast?.map (fun p => p.2) =
        some (applyUpdates o us).current_status) := by
  induction us generalizing o with
  | nil =>
    refine ⟨List.prefix_refl _, by simp [applyUpdates], fun h => absurd rfl h⟩
  | cons u rest ih =>
    have ih2 := ih (o.update_status u.1 u.2)
    refine ⟨List.IsPrefix.trans (List.prefix_append _ _) ih2.1, ?_, ?_⟩
    · show (applyUpdates (o.update_status u.1 u.2) rest).status_history.length = _
      rw [ih2.2.1]
      simp [Order.update_status]
      omega
    · intro _
      cases rest with
      | nil =>
        show (o.update_status u.1 u.2).status_history.getLast?.map (fun p => p.2) =
          some (o.update_status u.1 u.2).current_status
        simp [Order.update_status, List.getLast?_concat]
      | cons v vs =>
        exact ih2.2.2 (List.cons_ne_nil _ _)

/-- Which sku a ledger mutation writes a location for. -/
def writeTarget : LedgerOp → String
  | .add sku _ => sku
  | .remove sku _ _ => sku
  | .update sku _ => sku

/-- Which location string a ledger mutation records for its sku. -/
def writtenLoc : LedgerOp → String
  | .add _ rid => rackLoc rid
  | .remove _ _ loc => loc
  | .update _ loc => loc

/-- Modelled from the wording of the spec for find_item: the current location of
a sku after a call sequence is the location recorded by the last call that
relocated it, and absent when no call ever did. -/
def specCurrentLocation (ops : List LedgerOp) (sku : String) : Option String :=
  ops.foldl
    (fun acc op => if writeTarget op = sku then some (writtenLoc op) else acc) none

theorem find_item_applyOp (L : RackLedger) (op : LedgerOp) (sku : String) :
    find_item (applyOp L op) sku =
      if writeTarget op = sku then some (writtenLoc op) else find_item L sku := by
  cases op with
  | add s rid =>
    show dictGet (add_item_to_rack L s rid).locations sku = _
    rw [locations_add]
    by_cases h : s = sku
    · subst h
      rw [dictGet_dictSet_self]
      simp [writeTarget, writtenLoc]
    · rw [dictGet_dictSet_ne _ _ _ _ (Ne.symm h)]
      simp [writeTarget, h, find_item]
  | remove s rid loc =>
    show dictGet (remove_item_from_rack L s rid loc).locations sku = _
    rw [locations_remove]
    by_cases h : s = sku
    · subst h
      rw [dictGet_dictSet_self]
      simp [writeTarget, writtenLoc]
    · rw [dictGet_dictSet_ne _ _ _ _ (Ne.symm h)]
      simp [writeTarget, h, find_item]
  | update s loc =>
    show dictGet (update_item_location L s loc).locations sku = _
    rw [locations_update]
    by_cases h : s = sku
    · subst h
      rw [dictGet_dictSet_self]
      simp [writeTarget, writtenLoc]
    · rw [dictGet_dictSet_ne _ _ _ _ (Ne.symm h)]
      simp [writeTarget, h, find_item]

theorem find_item_applyOps (ops : List LedgerOp) (L : RackLedger) (sku : String) :
    find_item (applyOps L ops) sku =
      ops.foldl
        (fun acc op => if writeTarget op = sku then some (writtenLoc op) else acc)
        (find_item L sku) := by
  induction ops generalizing L with
  | nil => rfl
  | cons op rest ih =>
    show find_item (applyOps (applyOp L op) rest) sku = _
    rw [ih (applyOp L op), find_item_applyOp, List.foldl_cons]

theorem persist_add (L : RackLedger) (sku rid : String) :
    (add_item_to_rack L sku rid).persist_csv = L.persist_csv := by
  simp [add_item_to_rack, register_rack_persist]

theorem add_racks_of_mem (L : RackLedger) (sku rid : String)
    (hmem : sku ∈ rackContents L rid) :
    (add_item_to_rack L sku rid).racks = (register_rack L rid).racks := by
  simp only [add_item_to_rack]
  rw [rackContents_register, if_pos hmem]

theorem add_add (L : RackLedger) (sku rid : String) :
    add_item_to_rack (add_item_to_rack L sku rid) sku rid =
      add_item_to_rack L sku rid := by
  have hsome : dictGet (add_item_to_rack L sku rid).racks rid =
      some (if sku ∈ rackContents L rid then rackContents L rid
            else rackContents L rid ++ [sku]) := by
    have h := racks_dictGet_add L sku rid rid
    rwa [if_pos rfl] at h
  have hreg : register_rack (add_item_to_rack L sku rid) rid =
      add_item_to_rack L sku rid := by
    unfold register_rack
    rw [hsome]
  have hmemA : sku ∈ rackContents (add_item_to_rack L sku rid) rid :=
    mem_rackContents_add_self L sku rid
  have hracks2 : (add_item_to_rack (add_item_to_rack L sku rid) sku rid).racks =
      (add_item_to_rack L sku rid).racks := by
    rw [add_racks_of_mem _ sku rid hmemA, hreg]
  have hloc2 : (add_item_to_rack (add_item_to_rack L sku rid) sku rid).locations =
      (add_item_to_rack L sku rid).locations := by
    rw [locations_add (add_item_to_rack L sku rid) sku rid, locations_add L sku rid]
    exact dictSet_dictSet _ _ _ _
  have hp2 : (add_item_to_rack (add_item_to_rack L sku rid) sku rid).persist_csv =
      (add_item_to_rack L sku rid).persist_csv := persist_add _ _ _
  calc add_item_to_rack (add_item_to_rack L sku rid) sku rid
      = ⟨(add_item_to_rack (add_item_to_rack L sku rid) sku rid).racks,
         (add_item_to_rack (add_item_to_rack L sku rid) sku rid).locations,
         (add_item_to_rack (add_item_to_rack L sku rid) sku rid).persist_csv⟩ := rfl
    _ = ⟨(add_item_to_rack L sku rid).racks, (add_item_to_rack L sku rid).locations,
         (add_item_to_rack L sku rid).persist_csv⟩ := by rw [hracks2, hloc2, hp2]
    _ = add_item_to_rack L sku rid := rfl

/-- C2 (amended): along any sequence of update_status calls, the history
is append-only (the old history stays a prefix and the length grows by
exactly one entry per call), and whenever at least one update has happened
(or the starting state already had a matching last entry) the status part
of the last history entry equals current_status. The amendment is forced
by the counterexample: a freshly constructed Order has a non-empty
current_status but an empty history, so the original claim fails there. -/
theorem order_status_history_ok (o : Order) (us : List (String × String))
    (h : us ≠ [] ∨
      o.status_history.getLast?.map (fun p => p.2) = some o.current_status) :
    o.status_history <+: (applyUpdates o us).status_history ∧
    (applyUpdates o us).status_history.length = o.status_history.length + us.length ∧
    (applyUpdates o us).status_history.getLast?.map (fun p => p.2) =
      some (applyUpdates o us).current_status := by
  have hs := applyUpdates_spec us o
  refine ⟨hs.1, hs.2.1, ?_⟩
  rcases h with h | h
  · exact hs.2.2 h
  · cases us with
    | nil => simpa [applyUpdates] using h
    | cons u rest => exact hs.2.2 (List.cons_ne_nil _ _)

/-- Witness for C2 at a concrete order and a single concrete update. -/
theorem order_status_history_ok_witness :
    (mkOrder "ORD-1" (mkItem "SKU-1" "widget")).status_history <+:
      (applyUpdates (mkOrder "ORD-1" (mkItem "SKU-1" "widget"))
        [("t1", STATUS_READY_TO_PACK)]).status_history ∧
    (applyUpdates (mkOrder "ORD-1" (mkItem "SKU-1" "widget"))
        [("t1", STATUS_READY_TO_PACK)]).status_history.length =
      (mkOrder "ORD-1" (mkItem "SKU-1" "widget")).status_history.length +
        [("t1", STATUS_READY_TO_PACK)].length ∧
    (applyUpdates (mkOrder "ORD-1" (mkItem "SKU-1" "widget"))
        [("t1", STATUS_READY_TO_PACK)]).status_history.getLast?.map (fun p => p.2) =
      some (applyUpdates (mkOrder "ORD-1" (mkItem "SKU-1" "widget"))
        [("t1", STATUS_READY_TO_PACK)]).current_status :=
  order_status_history_ok _ _ (Or.inl (List.cons_ne_nil _ _))

/-- C2 counterexample: a freshly constructed Order (exactly what the demo
main builds) has current_status ITEM_IN_PROCESS but an empty
status_history, so at that point of its lifecycle no last entry equals the
current status. -/
theorem order_status_history_cex :
    (mkOrder "ORD-1" (mkItem "SKU-1" "widget")).status_history.getLast?.map
        (fun p => p.2) ≠
      some (mkOrder "ORD-1" (mkItem "SKU-1" "widget")).current_status := by
  simp [mkOrder, mkItem]

/-- C5: find_item returns exactly the location recorded by the last
mutation that relocated the sku, and the explicit absent result (Python
None) when no mutation in the whole history of the ledger ever touched the sku;
being a total function it cannot crash. -/
theorem find_item_current_or_absent (b : Bool) (ops : List LedgerOp) (sku : String) :
    find_item (applyOps (freshLedger b) ops) sku = specCurrentLocation ops sku := by
  rw [specCurrentLocation, find_item_applyOps]
  rfl

/-- C7: removing a sku from a rack whose contents do not hold it raises no
error, leaves the whole racks map unchanged, and still records the new
location for the sku. -/
theorem remove_absent_noop (L : RackLedger) (sku rid loc : String)
    (h : sku ∉ rackContents L rid) :
    (remove_item_from_rack L sku rid loc).racks = L.racks ∧
    find_item (remove_item_from_rack L sku rid loc) sku = some loc := by
  constructor
  · simp only [remove_item_from_rack]
    rw [if_neg h]
  · show dictGet (remove_item_from_rack L sku rid loc).locations sku = some loc
    rw [locations_remove, dictGet_dictSet_self]

/-- Witness for C7: removing from a never-registered rack of the fresh
ledger still updates the location and touches no rack. -/
theorem remove_absent_noop_witness :
    (remove_item_from_rack (freshLedger true) "SKU-9" "B2" STATION_PACKING).racks =
      (freshLedger true).racks ∧
    find_item (remove_item_from_rack (freshLedger true) "SKU-9" "B2" STATION_PACKING)
      "SKU-9" = some STATION_PACKING :=
  remove_absent_noop _ _ _ _ (by decide)

/-- C8: on every reachable ledger state, calling add_item_to_rack twice
with the same sku and rack leaves both maps exactly as a single call does,
and the sku appears at most once in the contents of that rack. -/
theorem add_item_idempotent (b : Bool) (ops : List LedgerOp) (sku rid : String) :
    add_item_to_rack (add_item_to_rack (applyOps (freshLedger b) ops) sku rid) sku rid =
      add_item_to_rack (applyOps (freshLedger b) ops) sku rid ∧
    List.count sku
      (rackContents (add_item_to_rack (applyOps (freshLedger b) ops) sku rid) rid) ≤ 1 := by
  refine ⟨add_add _ _ _, ?_⟩
  have hnd : nodupRacks (applyOps (freshLedger b) ops) :=
    nodupRacks_applyOps (nodupRacks_fresh b) ops
  have hnd2 : nodupRacks (add_item_to_rack (applyOps (freshLedger b) ops) sku rid) :=
    nodupRacks_add hnd sku rid
  exact List.nodup_iff_count_le_one.mp (nodupRacks_contents hnd2 rid) sku

/-- C10: updating the location of any sku, even one the ledger has never
seen, records exactly that location for find_item and leaves every rack's
contents untouched. -/
theorem update_then_find (L : RackLedger) (sku loc : String) :
    find_item (update_item_location L sku loc) sku = some loc ∧
    (update_item_location L sku loc).racks = L.racks := by
  constructor
  · show dictGet (update_item_location L sku loc).locations sku = some loc
    rw [locations_update, dictGet_dictSet_self]
  · rfl

/-- C1 (amended): starting from a fresh ledger, the cross-map
invariant holds after every call of any disciplined sequence — one where
each add_item_to_rack is issued while the sku sits on no rack, each
remove_item_from_rack names a rack such that the sku sits on no other
rack and gives a plain (non-rack-qualified) destination, and each
update_item_location moves an off-rack sku to a plain destination; this
is exactly the usage pattern of the workflow. The restriction is forced
by the counterexample: an unrestricted second add leaves the sku in two
racks at once. -/
theorem ledger_rack_location_invariant (b : Bool) (ops : List LedgerOp) (n : Nat)
    (h : okSeq (freshLedger b) ops = true) :
    claimInv (applyOps (freshLedger b) (ops.take n)) :=
  claimInv_of_locInv
    (wf_applyOps (locInv_fresh b) (nodupRacks_fresh b) (okSeq_take n h)).1

/-- Witness for C1 on the call pattern of the workflow itself: add to a rack,
remove to the packing station, update to the sorting station. -/
theorem ledger_rack_location_invariant_witness :
    claimInv (applyOps (freshLedger true)
      ([LedgerOp.add "SKU-1" "A1",
        LedgerOp.remove "SKU-1" "A1" STATION_PACKING,
        LedgerOp.update "SKU-1" STATION_SORTING].take 3)) :=
  ledger_rack_location_invariant true _ 3 (by decide)

/-- C1 counterexample: after add_item_to_rack of the same sku to a second
rack, the sku is still in the contents of the first rack while locations[sku]
is rack-qualified with the second rack, so the claimed invariant is false
after that call of this two-call sequence. -/
theorem ledger_rack_location_invariant_cex :
    ¬ claimInv
      (add_item_to_rack (add_item_to_rack (freshLedger true) "SKU-1" "A1")
        "SKU-1" "A2") := by
  intro h
  have h2 := (h "SKU-1" "A1").1.mpr (by decide)
  have h3 : dictGet (add_item_to_rack (add_item_to_rack (freshLedger true)
      "SKU-1" "A1") "SKU-1" "A2").locations "SKU-1" = some (rackLoc "A2") := by decide
  rw [h3] at h2
  injection h2 with h4
  exact absurd (rackLoc_inj h4) (by decide)

/-- C3: when the manager declines, the run performs exactly the six
transitions up to the declined status and then halts: the final status and
the last history entry are APPROVAL_DECLINED, PACKAGE_LOADED never enters
the history, and the ledger and item stay at the audit station (so
load_to_truck never ran). -/
theorem run_decline_halts (s : WFState) (rack fa ta code t1 t2 t3 t4 t5 t6 t7 : String) :
    (OrderWorkflow.run s rack fa ta code false t1 t2 t3 t4 t5 t6 t7).order.current_status =
      STATUS_APPROVAL_DECLINED ∧
    (OrderWorkflow.run s rack fa ta code false t1 t2 t3 t4 t5 t6 t7).order.status_history =
      s.order.status_history ++
        [(t1, STATUS_ITEM_IN_PROCESS), (t2, STATUS_READY_TO_PACK),
         (t3, STATUS_PACKAGE_LABELLED), (t4, STATUS_READY_TO_BE_PICKED),
         (t5, STATUS_AWAITING_APPROVAL), (t6, STATUS_APPROVAL_DECLINED)] ∧
    (OrderWorkflow.run s rack fa ta code false t1 t2 t3 t4 t5 t6 t7).order.status_history.getLast? =
      some (t6, STATUS_APPROVAL_DECLINED) ∧
    STATUS_PACKAGE_LOADED ∉
      ((OrderWorkflow.run s rack fa ta code false t1 t2 t3 t4 t5 t6 t7).order.status_history.drop
        s.order.status_history.length).map (fun p => p.2) ∧
    find_item (OrderWorkflow.run s rack fa ta code false t1 t2 t3 t4 t5 t6 t7).ledger
      s.order.item.sku = some STATION_AUDIT ∧
    (OrderWorkflow.run s rack fa ta code false t1 t2 t3 t4 t5 t6 t7).order.item.location =
      STATION_AUDIT := by
  refine ⟨rfl, ?_, ?_, ?_, ?_, rfl⟩
  · simp [OrderWorkflow.run, OrderWorkflow.receive_order_and_locate_item,
      OrderWorkflow.move_to_packing_station, OrderWorkflow.label_package,
      OrderWorkflow.sort_and_collate, OrderWorkflow.manager_approval,
      Order.update_status, List.append_assoc]
  · simp [OrderWorkflow.run, OrderWorkflow.receive_order_and_locate_item,
      OrderWorkflow.move_to_packing_station, OrderWorkflow.label_package,
      OrderWorkflow.sort_and_collate, OrderWorkflow.manager_approval,
      Order.update_status, List.getLast?_concat]
  · rw [show (OrderWorkflow.run s rack fa ta code false t1 t2 t3 t4 t5 t6 t7).order.status_history =
        s.order.status_history ++
          [(t1, STATUS_ITEM_IN_PROCESS), (t2, STATUS_READY_TO_PACK),
           (t3, STATUS_PACKAGE_LABELLED), (t4, STATUS_READY_TO_BE_PICKED),
           (t5, STATUS_AWAITING_APPROVAL), (t6, STATUS_APPROVAL_DECLINED)] from by
      simp [OrderWorkflow.run, OrderWorkflow.receive_order_and_locate_item,
        OrderWorkflow.move_to_packing_station, OrderWorkflow.label_package,
        OrderWorkflow.sort_and_collate, OrderWorkflow.manager_approval,
        Order.update_status, List.append_assoc]]
    rw [List.drop_left]
    simp [STATUS_PACKAGE_LOADED, STATUS_ITEM_IN_PROCESS, STATUS_READY_TO_PACK,
      STATUS_PACKAGE_LABELLED, STATUS_READY_TO_BE_PICKED,
      STATUS_AWAITING_APPROVAL, STATUS_APPROVAL_DECLINED]
  · simp [OrderWorkflow.run, OrderWorkflow.receive_order_and_locate_item,
      OrderWorkflow.move_to_packing_station, OrderWorkflow.label_package,
      OrderWorkflow.sort_and_collate, OrderWorkflow.manager_approval,
      Order.update_status, find_item, add_item_to_rack, register_rack,
      remove_item_from_rack, update_item_location, dictGet_dictSet_self]

/-- C4: when the manager approves, the run performs exactly the seven
transitions: after APPROVAL_GRANTED exactly one further update_status
happens, it sets PACKAGE_LOADED, and that is the final status; the ledger
and the item end at the loading dock. -/
theorem run_approve_loads (s : WFState) (rack fa ta code t1 t2 t3 t4 t5 t6 t7 : String) :
    (OrderWorkflow.run s rack fa ta code true t1 t2 t3 t4 t5 t6 t7).order.current_status =
      STATUS_PACKAGE_LOADED ∧
    (OrderWorkflow.run s rack fa ta code true t1 t2 t3 t4 t5 t6 t7).order.status_history =
      s.order.status_history ++
        [(t1, STATUS_ITEM_IN_PROCESS), (t2, STATUS_READY_TO_PACK),
         (t3, STATUS_PACKAGE_LABELLED), (t4, STATUS_READY_TO_BE_PICKED),
         (t5, STATUS_AWAITING_APPROVAL), (t6, STATUS_APPROVAL_GRANTED),
         (t7, STATUS_PACKAGE_LOADED)] ∧
    (OrderWorkflow.run s rack fa ta code true t1 t2 t3 t4 t5 t6 t7).order.status_history.getLast? =
      some (t7, STATUS_PACKAGE_LOADED) ∧
    find_item (OrderWorkflow.run s rack fa ta code true t1 t2 t3 t4 t5 t6 t7).ledger
      s.order.item.sku = some STATION_LOADING ∧
    (OrderWorkflow.run s rack fa ta code true t1 t2 t3 t4 t5 t6 t7).order.item.location =
      STATION_LOADING := by
  refine ⟨rfl, ?_, ?_, ?_, rfl⟩
  · simp [OrderWorkflow.run, OrderWorkflow.receive_order_and_locate_item,
      OrderWorkflow.move_to_packing_station, OrderWorkflow.label_package,
      OrderWorkflow.sort_and_collate, OrderWorkflow.manager_approval,
      OrderWorkflow.load_to_truck, Order.update_status, List.append_assoc]
  · simp [OrderWorkflow.run, OrderWorkflow.receive_order_and_locate_item,
      OrderWorkflow.move_to_packing_station, OrderWorkflow.label_package,
      OrderWorkflow.sort_and_collate, OrderWorkflow.manager_approval,
      OrderWorkflow.load_to_truck, Order.update_status, List.getLast?_concat]
  · simp [OrderWorkflow.run, OrderWorkflow.receive_order_and_locate_item,
      OrderWorkflow.move_to_packing_station, OrderWorkflow.label_package,
      OrderWorkflow.sort_and_collate, OrderWorkflow.manager_approval,
      OrderWorkflow.load_to_truck, Order.update_status, find_item,
      add_item_to_rack, register_rack, remove_item_from_rack,
      update_item_location, dictGet_dictSet_self]

/-- The invariant claimed by the spec on the Item record: the rack field
is non-null exactly when the location of the item is the racks station. -/
def itemInv (i : Item) : Prop :=
  i.rack.isSome = true ↔ i.location = STATION_WAREHOUSE_RACKS

/-- C6 (amended): the rack/location invariant on the Item holds at every
observable point after the first workflow transition — after each of the
six steps of the run, for either approval decision. The amendment is
forced by the counterexample: a default-constructed Item (rack = None,
location = racks station), which is what the workflow receives, violates
the invariant before the first transition. -/
theorem item_rack_invariant_along_run (s : WFState)
    (rack fa ta code : String) (decision : Bool) (t1 t2 t3 t4 t5 t6 t7 : String) :
    itemInv (OrderWorkflow.receive_order_and_locate_item s rack t1).order.item ∧
    itemInv (OrderWorkflow.move_to_packing_station
      (OrderWorkflow.receive_order_and_locate_item s rack t1) t2).order.item ∧
    itemInv (OrderWorkflow.label_package
      (OrderWorkflow.move_to_packing_station
        (OrderWorkflow.receive_order_and_locate_item s rack t1) t2)
      fa ta code t3).order.item ∧
    itemInv (OrderWorkflow.sort_and_collate
      (OrderWorkflow.label_package
        (OrderWorkflow.move_to_packing_station
          (OrderWorkflow.receive_order_and_locate_item s rack t1) t2)
        fa ta code t3) t4).order.item ∧
    itemInv ((OrderWorkflow.manager_approval
      (OrderWorkflow.sort_and_collate
        (OrderWorkflow.label_package
          (OrderWorkflow.move_to_packing_station
            (OrderWorkflow.receive_order_and_locate_item s rack t1) t2)
          fa ta code t3) t4) decision t5 t6).1).order.item ∧
    itemInv (OrderWorkflow.run s rack fa ta code decision
      t1 t2 t3 t4 t5 t6 t7).order.item := by
  cases decision <;>
    refine ⟨?_, ?_, ?_, ?_, ?_, ?_⟩ <;>
      simp [itemInv, OrderWorkflow.receive_order_and_locate_item,
        OrderWorkflow.move_to_packing_station, OrderWorkflow.label_package,
        OrderWorkflow.sort_and_collate, OrderWorkflow.manager_approval,
        OrderWorkflow.load_to_truck, OrderWorkflow.run, Order.update_status,
        STATION_WAREHOUSE_RACKS, STATION_PACKING, STATION_SORTING,
        STATION_AUDIT, STATION_LOADING]

/-- C6 counterexample: the Item the demo main constructs (dataclass
defaults: rack = None, location = the racks station) violates the claimed
invariant at the observable point before the first transition. -/
theorem item_rack_invariant_cex : ¬ itemInv (mkItem "SKU-1" "widget") := by
  unfold itemInv mkItem
  decide

/-- C9: label_package changes no ledger state at all — the racks and
locations maps are untouched — and on the order it changes only the item
barcode, the label, the current status and the history entry it appends. -/
theorem label_package_frame (s : WFState) (fa ta code ts : String) :
    (OrderWorkflow.label_package s fa ta code ts).ledger = s.ledger ∧
    (OrderWorkflow.label_package s fa ta code ts).ledger.racks = s.ledger.racks ∧
    (OrderWorkflow.label_package s fa ta code ts).ledger.locations = s.ledger.locations ∧
    (OrderWorkflow.label_package s fa ta code ts).order.order_id = s.order.order_id ∧
    (OrderWorkflow.label_package s fa ta code ts).order.item.sku = s.order.item.sku ∧
    (OrderWorkflow.label_package s fa ta code ts).order.item.description =
      s.order.item.description ∧
    (OrderWorkflow.label_package s fa ta code ts).order.item.rack = s.order.item.rack ∧
    (OrderWorkflow.label_package s fa ta code ts).order.item.location =
      s.order.item.location ∧
    (OrderWorkflow.label_package s fa ta code ts).order.item.barcode = some code ∧
    (OrderWorkflow.label_package s fa ta code ts).order.label =
      some ⟨fa, ta, code⟩ ∧
    (OrderWorkflow.label_package s fa ta code ts).order.current_status =
      STATUS_PACKAGE_LABELLED ∧
    (OrderWorkflow.label_package s fa ta code ts).order.status_history =
      s.order.status_history ++ [(ts, STATUS_PACKAGE_LABELLED)] :=
  ⟨rfl, rfl, rfl, rfl, rfl, rfl, rfl, rfl, rfl, rfl, rfl, rfl⟩

end Warehouse
